import Mathlib

/-!
Verification development for the ACB web API core (CIAT-DAPA/acb_webapi).

The development shallowly embeds the access-control resolution engine
(`src/auth/access_utils.py`, `src/constants/permissions.py`), the generic
resource service (`src/services/base_service.py`), the group membership
mutations (`src/services/groups_service.py`), and the master/version
lifecycle operations (`src/api/bulletins_management.py`,
`src/services/bulletins_master_service.py`,
`src/services/bulletins_version_service.py`,
`src/services/bulletins_version_service.py`, `src/tools/utils.py`).

Modelling conventions:
 * MongoDB ObjectId values are abstracted as `Nat` (each collection's `_id`
   is its primary key, so `objects.get(id=i)` is lookup of the first and
   only record with that id).  The string-format validation layer
   (`bson.ObjectId.is_valid`, `parse_object_ids`) is modelled separately
   over raw `String` identifiers for the claims that concern it.
 * Python dictionaries (`role.permissions`) are association lists.
 * A raised Python exception is an `Except.error`: `PyErr.doesNotExist` is
   an uncaught mongoengine `DoesNotExist`, `PyErr.http s d` is a
   `fastapi.HTTPException(status_code=s, detail=d)`.
 * Stateful operations take the persisted state and return the
   (possibly updated) state next to their `Except` result, so that a
   failing call's effect on storage is visible in the returned state.
 * Audit logs are abstracted to their `creator_user_id` field (the field
   `BaseService.create` writes).
-/

namespace ACB

/-- Python exception surfaced by an operation. -/
inductive PyErr where
  | doesNotExist
  | http (status : Nat) (detail : String)
deriving DecidableEq, Repr

/-- `access_type` of an `AccessConfig` embedded document. -/
inductive AccessType where
  | public
  | restricted
deriving DecidableEq, Repr

/-- Embedded access-control descriptor of a resource. -/
structure AccessConfig where
  access_type : AccessType
  allowed_groups : List Nat
deriving DecidableEq, Repr

/-- One `users_access` entry of a group: an (actor, role) pair. -/
structure UserAccess where
  user_id : Nat
  role_id : Nat
deriving DecidableEq, Repr

/-- A group document (`acb_orm.collections.groups.Group`). -/
structure Group where
  id : Nat
  users_access : List UserAccess
deriving DecidableEq, Repr

/-- A role document: name plus module -> action -> allowed mapping. -/
structure Role where
  id : Nat
  role_name : String
  permissions : List (String × List (String × Bool))
deriving DecidableEq, Repr

/-- The group and role collections consulted by the access resolver. -/
structure Db where
  groups : List Group
  roles : List Role
deriving DecidableEq, Repr

/-- `GLOBAL_ADMIN_ROLE_NAMES` from `src/constants/permissions.py`. -/
def GLOBAL_ADMIN_ROLE_NAMES : List String := ["superadmin"]

/-- `MODULE_ACCESS_CONTROL` from `src/constants/permissions.py`. -/
def MODULE_ACCESS_CONTROL : String := "access_control"

/-- `Role.objects.get(id=rid)` / `Role.objects(id=rid).first()` hit. -/
def findRole (roles : List Role) (rid : Nat) : Option Role :=
  roles.find? (fun r => r.id == rid)

/-- `next((ua for ua in group.users_access if str(ua.user_id.id) == str(user_id)), None)`. -/
def findUserAccess (g : Group) (uid : Nat) : Option UserAccess :=
  g.users_access.find? (fun ua => ua.user_id == uid)

/-- `Group.objects(users_access__user_id=user_id)`: groups holding the actor. -/
def userGroups (db : Db) (uid : Nat) : List Group :=
  db.groups.filter (fun g => g.users_access.any (fun ua => ua.user_id == uid))

/-- `Group.objects.get(id=gid)` hit (or `None` when the get would raise). -/
def findGroup (db : Db) (gid : Nat) : Option Group :=
  db.groups.find? (fun g => g.id == gid)

/-- `role.permissions.get(module, {}).get(action, False)`. -/
def permLookup (perms : List (String × List (String × Bool)))
    (module action : String) : Bool :=
  match perms.lookup module with
  | none => false
  | some acts => (acts.lookup action).getD false

/-- Whether a membership entry resolves (via `.first()`) to a global-admin role. -/
def uaIsGlobalAdmin (roles : List Role) (ua : UserAccess) : Bool :=
  match findRole roles ua.role_id with
  | some r => GLOBAL_ADMIN_ROLE_NAMES.contains r.role_name
  | none => false

/-- `is_superadmin` (`src/auth/access_utils.py:100-109`): true iff some group
membership of the actor resolves to a role named in the global-admin set. -/
def is_superadmin (db : Db) (uid : Nat) : Bool :=
  (userGroups db uid).any fun g =>
    g.users_access.any fun ua => ua.user_id == uid && uaIsGlobalAdmin db.roles ua

/-- Inner loop of step 1 of `user_has_permission`: scan one group's
`users_access`, fetching each matching entry's role with
`Role.objects.get` (which raises when the role is absent), and stop at
the first global-admin role. -/
def scanAccessList (roles : List Role) (uid : Nat) :
    List UserAccess → Except PyErr Bool
  | [] => .ok false
  | ua :: rest =>
    if ua.user_id == uid then
      match findRole roles ua.role_id with
      | none => .error .doesNotExist
      | some r =>
        if GLOBAL_ADMIN_ROLE_NAMES.contains r.role_name then .ok true
        else scanAccessList roles uid rest
    else scanAccessList roles uid rest

/-- Outer loop of step 1 of `user_has_permission`: scan the actor's groups. -/
def scanGroups (roles : List Role) (uid : Nat) : List Group → Except PyErr Bool
  | [] => .ok false
  | g :: rest =>
    match scanAccessList roles uid g.users_access with
    | .error e => .error e
    | .ok true => .ok true
    | .ok false => scanGroups roles uid rest

/-- `user_has_permission` (`src/auth/access_utils.py:73-97`).
Step 1 scans every group membership of the actor for a global-admin role
(returning true on the first hit).  Step 2 fetches the given group with
`Group.objects.get` (raising `DoesNotExist` when absent), finds the
actor's access entry (no entry: false), fetches its role and returns the
stored permission bit for (module, action), defaulting to false. -/
def user_has_permission (db : Db) (uid gid : Nat) (module action : String) :
    Except PyErr Bool :=
  match scanGroups db.roles uid (userGroups db uid) with
  | .error e => .error e
  | .ok true => .ok true
  | .ok false =>
    match findGroup db gid with
    | none => .error .doesNotExist
    | some g =>
      match findUserAccess g uid with
      | none => .ok false
      | some ua =>
        match findRole db.roles ua.role_id with
        | none => .error .doesNotExist
        | some role => .ok (permLookup role.permissions module action)

/-- `user_is_group_admin` (`src/auth/access_utils.py:132-143`). -/
def user_is_group_admin (db : Db) (uid gid : Nat) : Bool :=
  match findGroup db gid with
  | none => false
  | some g =>
    g.users_access.any fun ua =>
      ua.user_id == uid &&
        match findRole db.roles ua.role_id with
        | some r => r.role_name == "admin"
        | none => false

/-- Every role referenced from a group's `users_access` exists in the role
collection (referential integrity of the membership store). -/
def RolesWF (db : Db) : Prop :=
  ∀ g ∈ db.groups, ∀ ua ∈ g.users_access, (findRole db.roles ua.role_id).isSome

instance decidableRolesWF (db : Db) : Decidable (RolesWF db) :=
  inferInstanceAs (Decidable (∀ g ∈ db.groups, ∀ ua ∈ g.users_access,
    (findRole db.roles ua.role_id).isSome = true))

/-- Step 2 of `user_has_permission` as a pure decision on a fetched group,
following the spec's words: the actor's role in the group must have the
action allowed for the module; a missing access entry, missing module
entry or missing action entry denies. -/
def groupPermDecision (db : Db) (g : Group) (uid : Nat)
    (module action : String) : Bool :=
  match findUserAccess g uid with
  | none => false
  | some ua =>
    match findRole db.roles ua.role_id with
    | none => false
    | some role => permLookup role.permissions module action

/-! ### Visibility resolver -/

/-- `get_user_groups` (`src/auth/access_utils.py:22-27`): ids of the
groups holding the actor. -/
def get_user_groups (db : Db) (uid : Nat) : List Nat :=
  (userGroups db uid).map (fun g => g.id)

/-- `access_config__access_type="public"` test. -/
def isPublicCfg (c : AccessConfig) : Bool :=
  match c.access_type with
  | .public => true
  | .restricted => false

/-- `access_config__access_type="restricted"` test. -/
def isRestrictedCfg (c : AccessConfig) : Bool :=
  match c.access_type with
  | .public => false
  | .restricted => true

/-- `BaseService.get_all` (`src/services/base_service.py:82-93`): every
document matching the extra filters.  Mongo filter dictionaries are
embedded as boolean predicates over documents. -/
def get_all {α : Type} (store : List α) (filters : α → Bool) : List α :=
  store.filter filters

/-- `BaseService.get_accessible_resources`
(`src/services/base_service.py:30-47`): a global admin gets `get_all`;
otherwise the public documents matching the filters followed by the
restricted documents whose `allowed_groups` meets the actor's groups
(`allowed_groups__in=user_groups`), matching the filters. -/
def get_accessible_resources {α : Type} (db : Db) (uid : Nat) (store : List α)
    (acc : α → AccessConfig) (filters : α → Bool) : List α :=
  if is_superadmin db uid then get_all store filters
  else
    let ugs := get_user_groups db uid
    store.filter (fun r => isPublicCfg (acc r) && filters r) ++
      store.filter (fun r => isRestrictedCfg (acc r) &&
        (acc r).allowed_groups.any (fun gid => ugs.contains gid) && filters r)

/-! ### Master/version lifecycle state -/

/-- A version document (bulletins/templates version collections): id,
back-reference to the master, chain metadata, content payload, and the
audit log abstracted to its creator. -/
structure VersionRec where
  id : Nat
  master_id : Nat
  version_num : Nat
  previous_version_id : Option Nat
  payload : String
  creator : Nat
deriving DecidableEq, Repr

/-- A master document: id, name, opaque domain fields, access descriptor,
current-version pointer, audit-log creator. -/
structure MasterRec where
  id : Nat
  name : String
  fields : String
  access_config : AccessConfig
  current_version_id : Option Nat
  creator : Nat
deriving DecidableEq, Repr

/-- Creation payload for a master (`BulletinsMasterCreate` abstraction). -/
structure MasterData where
  name : String
  fields : String
  access_config : AccessConfig
  current_version_id : Option Nat := none
deriving DecidableEq, Repr

/-- Update payload for a master (`model_dump(exclude_unset=True)`
semantics: `none` means the field is not part of the update). -/
structure MasterUpdate where
  name : Option String := none
  fields : Option String := none
  current_version_id : Option Nat := none
deriving DecidableEq, Repr

/-- The persisted state the lifecycle operations act on: the group/role
stores, one master collection, its version collection, and a fresh-id
counter standing for MongoDB ObjectId generation. -/
structure St where
  db : Db
  masters : List MasterRec
  versions : List VersionRec
  nextId : Nat
deriving DecidableEq, Repr

/-- `db_obj.modify(...)` on a fetched document: replace the first
document carrying the same id (the `_id` primary key). -/
def replaceBy {α : Type} (idOf : α → Nat) : List α → α → List α
  | [], _ => []
  | x :: rest, x' =>
    if idOf x == idOf x' then x' :: rest else x :: replaceBy idOf rest x'

/-- `f"User does not have permission to create resource in group {g}."` -/
def createDenyDetail (gid : Nat) : String :=
  s!"User does not have permission to create resource in group {gid}."

/-- `f"User does not have permission to update resource in group {g}."` -/
def updateDenyDetail (gid : Nat) : String :=
  s!"User does not have permission to update resource in group {gid}."

/-- The `for group_id in allowed_groups: if not user_has_permission(...)` loop
of `BaseService.create`/`update`: first group where the permission check
denies, propagating a raised exception from the check itself. -/
def firstDeniedGroup (db : Db) (uid : Nat) (module action : String) :
    List Nat → Except PyErr (Option Nat)
  | [] => .ok none
  | gid :: rest =>
    match user_has_permission db uid gid module action with
    | .error e => .error e
    | .ok true => firstDeniedGroup db uid module action rest
    | .ok false => .ok (some gid)

/-- Apply an update payload to a master (`db_obj.modify(**update_data)`). -/
def applyUpdate (m : MasterRec) (u : MasterUpdate) : MasterRec :=
  { m with
    name := u.name.getD m.name
    fields := u.fields.getD m.fields
    current_version_id :=
      match u.current_version_id with
      | some v => some v
      | none => m.current_version_id }

/-- `BaseService.create` (`src/services/base_service.py:95-132`) on the
master collection.  When a module is passed and the payload is not
public, every allowed group must grant the create action before anything
is written; then the document is saved with a fresh id and the audit log
creator set to the acting user. -/
def svc_create_master (s : St) (uid : Nat) (module : Option String)
    (data : MasterData) : Except PyErr MasterRec × St :=
  let check : Except PyErr Unit :=
    match module with
    | none => .ok ()
    | some md =>
      match data.access_config.access_type with
      | .public => .ok ()
      | .restricted =>
        match firstDeniedGroup s.db uid md "c" data.access_config.allowed_groups with
        | .error e => .error e
        | .ok none => .ok ()
        | .ok (some gid) => .error (.http 403 (createDenyDetail gid))
  match check with
  | .error e => (.error e, s)
  | .ok _ =>
    let m : MasterRec :=
      { id := s.nextId, name := data.name, fields := data.fields
      , access_config := data.access_config
      , current_version_id := data.current_version_id, creator := uid }
    (.ok m, { s with masters := s.masters ++ [m], nextId := s.nextId + 1 })

/-- `BaseService.update` (`src/services/base_service.py:134-191`) on the
master collection (canonical-id case; the raw-string validation layer is
modelled separately below).  `objects.get` sits outside the handler, so a
missing id raises; when a module is passed and the stored document is not
public, every allowed group must grant the update action before the
modify. -/
def svc_update_master (s : St) (uid : Nat) (module : Option String)
    (mid : Nat) (u : MasterUpdate) : Except PyErr MasterRec × St :=
  match s.masters.find? (fun m => m.id == mid) with
  | none => (.error .doesNotExist, s)
  | some m =>
    let check : Except PyErr Unit :=
      match module with
      | none => .ok ()
      | some md =>
        match m.access_config.access_type with
        | .public => .ok ()
        | .restricted =>
          match firstDeniedGroup s.db uid md "u" m.access_config.allowed_groups with
          | .error e => .error e
          | .ok none => .ok ()
          | .ok (some gid) => .error (.http 403 (updateDenyDetail gid))
    match check with
    | .error e => (.error e, s)
    | .ok _ =>
      let m' := applyUpdate m u
      (.ok m', { s with masters := replaceBy (fun x => x.id) s.masters m' })

/-- `BaseService.get_by_id` on the version collection (canonical-id
case): serialized document or 404. -/
def version_get_by_id (vs : List VersionRec) (vid : Nat) :
    Except PyErr VersionRec :=
  match vs.find? (fun v => v.id == vid) with
  | some v => .ok v
  | none => .error (.http 404 "Resource not found")

/-- The 404 raised when the visibility filter returns nothing. -/
def notFoundNoAccess : PyErr := .http 404 "Not found or no access"

/-- `BaseService.create` on the version collection: versions carry no
`access_config` and the callers pass no module, so no permission check
runs; the document is saved with a fresh id and log creator. -/
def svc_create_version (s : St) (uid mid num : Nat) (prev : Option Nat)
    (payload : String) : VersionRec × St :=
  let v : VersionRec :=
    { id := s.nextId, master_id := mid, version_num := num
    , previous_version_id := prev, payload := payload, creator := uid }
  (v, { s with versions := s.versions ++ [v], nextId := s.nextId + 1 })

/-- Tail of the version-creation flow: persist the freshly numbered
version, then update the master's `current_version_id` pointer (no
module passed, so no permission check in the update). -/
def finishVersionWrite (s1 : St) (uid mid : Nat) (v : VersionRec) :
    Except PyErr VersionRec × St :=
  match svc_update_master s1 uid none mid { current_version_id := some v.id } with
  | (.error e, s2) => (.error e, s2)
  | (.ok _, s2) => (.ok v, s2)

/-- `create_bulletin_version` (`src/api/bulletins_management.py:288-314`;
`create_template_version` is the same flow): visibility check via
`get_accessible_resources` filtered by master id (404 when empty, else
the `[0]` element), chain metadata computed from the master's
`current_version_id`, version created, then the master updated with the
new pointer (no module passed to either write). -/
def create_version (s : St) (uid mid : Nat) (payload : String) :
    Except PyErr VersionRec × St :=
  match (get_accessible_resources s.db uid s.masters (fun m => m.access_config)
      (fun m => m.id == mid)).head? with
  | none => (.error notFoundNoAccess, s)
  | some m =>
    match m.current_version_id with
    | some pvid =>
      match version_get_by_id s.versions pvid with
      | .error e => (.error e, s)
      | .ok prev =>
        finishVersionWrite
          (svc_create_version s uid mid (prev.version_num + 1) (some pvid) payload).2
          uid mid
          (svc_create_version s uid mid (prev.version_num + 1) (some pvid) payload).1
    | none =>
      finishVersionWrite (svc_create_version s uid mid 1 none payload).2 uid mid
        (svc_create_version s uid mid 1 none payload).1

/-- The dumped master turned into a creation payload: id dropped, name
override (or the `" (clon)"` default suffix) applied, pointer reset. -/
def cloneData (master : MasterRec) (nameOverride : Option String) : MasterData :=
  { name :=
      match nameOverride with
      | some n => n
      | none => master.name ++ " (clon)"
  , fields := master.fields
  , access_config := master.access_config
  , current_version_id := none }

/-- Tail of the clone flow: persist the cloned version (carrying the
source's `version_num`, a reset `previous_version_id` and the new
master's id), then point the new master at it. -/
def finishCloneWrite (s1 : St) (uid : Nat) (newM : MasterRec) (cv : VersionRec) :
    Except PyErr (MasterRec × Option VersionRec) × St :=
  match svc_update_master
      (svc_create_version s1 uid newM.id cv.version_num none cv.payload).2
      uid none newM.id
      { current_version_id :=
          some (svc_create_version s1 uid newM.id cv.version_num none cv.payload).1.id } with
  | (.error e, s3) => (.error e, s3)
  | (.ok newM2, s3) =>
    (.ok (newM2, some (svc_create_version s1 uid newM.id cv.version_num none cv.payload).1), s3)

/-- `BulletinsMasterService.clone_master_with_version`
(`src/services/bulletins_master_service.py:72-87`) together with
`clone_version` (`src/services/bulletins_version_service.py:40-46`;
`TemplatesVersionService.clone_version` is the same flow): dump the
master, drop its id, apply the name override (default `" (clon)"`
suffix), reset the pointer, create the new master (no module passed), and
when the source has a current version clone that single version with
`previous_version_id = None` and the new master id, then point the new
master at the clone. -/
def clone_master_with_version (s : St) (uid : Nat) (master : MasterRec)
    (nameOverride : Option String) :
    Except PyErr (MasterRec × Option VersionRec) × St :=
  match svc_create_master s uid none (cloneData master nameOverride) with
  | (.error e, s1) => (.error e, s1)
  | (.ok newM, s1) =>
    match master.current_version_id with
    | none => (.ok (newM, none), s1)
    | some cvid =>
      match version_get_by_id s1.versions cvid with
      | .error e => (.error e, s1)
      | .ok cv => finishCloneWrite s1 uid newM cv

/-! ### Group membership mutations -/

/-- The shared authorization disjunction of the group mutations
(`src/services/groups_service.py`): superadmin, else
`user_has_permission(updater, group, access_control, action)`, else group
admin — evaluated left to right as Python `or` does. -/
def groupMutAuth (db : Db) (updater gid : Nat) (action : String) :
    Except PyErr Bool :=
  if is_superadmin db updater then .ok true
  else
    match user_has_permission db updater gid MODULE_ACCESS_CONTROL action with
    | .error e => .error e
    | .ok true => .ok true
    | .ok false => .ok (user_is_group_admin db updater gid)

/-- `GroupsService.add_user_to_group`
(`src/services/groups_service.py:108-138`). -/
def add_user_to_group (s : St) (updater gid uid rid : Nat) :
    Except PyErr Group × St :=
  match groupMutAuth s.db updater gid "c" with
  | .error e => (.error e, s)
  | .ok false => (.error (.http 403 "Not authorized to add users to this group"), s)
  | .ok true =>
    match findGroup s.db gid with
    | none => (.error (.http 404 "Group not found"), s)
    | some g =>
      match findRole s.db.roles rid with
      | none => (.error (.http 404 "Role not found"), s)
      | some role =>
        if ["superadmin"].contains role.role_name && !is_superadmin s.db updater then
          (.error (.http 403 "Only superadmin can assign superadmin role"), s)
        else if g.users_access.any (fun ua => ua.user_id == uid) then
          (.error (.http 400 "User already belongs to the group"), s)
        else
          let g' := { g with users_access := g.users_access ++ [⟨uid, rid⟩] }
          (.ok g', { s with db := { s.db with groups := replaceBy (fun x => x.id) s.db.groups g' } })

/-- `GroupsService.remove_user_from_group`
(`src/services/groups_service.py:140-156`); here `Group.objects.get` is
not wrapped, so a missing group raises. -/
def remove_user_from_group (s : St) (updater gid uid : Nat) :
    Except PyErr Group × St :=
  match groupMutAuth s.db updater gid "d" with
  | .error e => (.error e, s)
  | .ok false => (.error (.http 403 "Not authorized to remove users from this group"), s)
  | .ok true =>
    match findGroup s.db gid with
    | none => (.error .doesNotExist, s)
    | some g =>
      let kept := g.users_access.filter (fun ua => !(ua.user_id == uid))
      if kept.length == g.users_access.length then
        (.error (.http 404 "User does not belong to the group"), s)
      else
        let g' := { g with users_access := kept }
        (.ok g', { s with db := { s.db with groups := replaceBy (fun x => x.id) s.db.groups g' } })

/-- `GroupsService.update_user_role_in_group`
(`src/services/groups_service.py:158-190`). -/
def update_user_role_in_group (s : St) (updater gid uid rid : Nat) :
    Except PyErr Group × St :=
  match groupMutAuth s.db updater gid "u" with
  | .error e => (.error e, s)
  | .ok false => (.error (.http 403 "Not authorized to change roles in this group"), s)
  | .ok true =>
    match findGroup s.db gid with
    | none => (.error (.http 404 "Group not found"), s)
    | some g =>
      match findRole s.db.roles rid with
      | none => (.error (.http 404 "Role not found"), s)
      | some newRole =>
        if newRole.role_name == "superadmin" && !is_superadmin s.db updater then
          (.error (.http 403 "Only superadmin can assign superadmin role"), s)
        else if g.users_access.any (fun ua => ua.user_id == uid) then
          let g' := { g with users_access :=
            g.users_access.map (fun ua =>
              if ua.user_id == uid then { ua with role_id := rid } else ua) }
          (.ok g', { s with db := { s.db with groups := replaceBy (fun x => x.id) s.db.groups g' } })
        else (.error (.http 404 "User does not belong to the group"), s)

/-- `roleOf(actor, group)`: the actor's role id in the group, read off the
membership store the way `get_user_roles_by_group` projects it. -/
def roleOf (db : Db) (uid gid : Nat) : Option Nat :=
  match findGroup db gid with
  | none => none
  | some g => (findUserAccess g uid).map (fun ua => ua.role_id)

/-! ### Exposed operations, for the immutability invariant -/

/-- One exposed mutating operation of the core. -/
inductive Op where
  | createMaster (uid : Nat) (module : Option String) (data : MasterData)
  | updateMaster (uid : Nat) (module : Option String) (mid : Nat) (u : MasterUpdate)
  | createVersion (uid mid : Nat) (payload : String)
  | cloneMaster (uid mid : Nat) (nameOverride : Option String)
  | addUser (updater gid uid rid : Nat)
  | removeUser (updater gid uid : Nat)
  | updateUserRole (updater gid uid rid : Nat)

/-- Run one exposed operation for its state effect (the route resolves
the master to clone by id first). -/
def runOp (s : St) : Op → St
  | .createMaster uid module data => (svc_create_master s uid module data).2
  | .updateMaster uid module mid u => (svc_update_master s uid module mid u).2
  | .createVersion uid mid payload => (create_version s uid mid payload).2
  | .cloneMaster uid mid nm =>
    match s.masters.find? (fun m => m.id == mid) with
    | none => s
    | some m => (clone_master_with_version s uid m nm).2
  | .addUser updater gid uid rid => (add_user_to_group s updater gid uid rid).2
  | .removeUser updater gid uid => (remove_user_from_group s updater gid uid).2
  | .updateUserRole updater gid uid rid => (update_user_role_in_group s updater gid uid rid).2

/-! ### Raw string identifier layer -/

/-- Hexadecimal digit test, as `bson.ObjectId.is_valid` accepts. -/
def isHexChar (c : Char) : Bool :=
  c.isDigit || ('a' ≤ c && c ≤ 'f') || ('A' ≤ c && c ≤ 'F')

/-- `bson.ObjectId.is_valid` on a string: a 24-character hex string. -/
def oid_is_valid (str : String) : Bool :=
  str.length == 24 && str.toList.all isHexChar

/-- Whitespace as Python's `str.strip()` removes it. -/
def isSpaceChar (c : Char) : Bool :=
  c == ' ' || c == '\t' || c == '\n' || c == '\r'

/-- Drop leading whitespace characters. -/
def dropLeadingSpaces : List Char → List Char
  | [] => []
  | c :: rest => if isSpaceChar c then dropLeadingSpaces rest else c :: rest

/-- Python `str.strip()`: drop whitespace from both ends. -/
def pyStrip (s : String) : String :=
  ⟨((dropLeadingSpaces (dropLeadingSpaces s.data).reverse)).reverse⟩

/-- Worker for Python `str.split(",")`. -/
def splitCommaAux : List Char → List Char → List String
  | [], acc => [⟨acc.reverse⟩]
  | c :: rest, acc =>
    if c == ',' then ⟨acc.reverse⟩ :: splitCommaAux rest []
    else splitCommaAux rest (c :: acc)

/-- Python `str.split(",")`. -/
def pySplitComma (s : String) : List String := splitCommaAux s.data []

/-- `parse_object_ids` (`src/tools/utils.py:7-16`): split on commas,
strip, drop empties, and reject the whole request with a 400 naming the
invalid ids when any id is not canonical. -/
def parse_object_ids (ids_str : String) : Except PyErr (List String) :=
  let ids := ((pySplitComma ids_str).map (fun i => pyStrip i)).filter
    (fun i => !i.isEmpty)
  let invalid := ids.filter (fun i => !oid_is_valid i)
  if invalid.isEmpty then .ok ids
  else .error (.http 400 ("Invalid ObjectIds: " ++ String.intercalate ", " invalid))

/-- The 500 produced by a generic `except Exception` handler. -/
def internalError : PyErr := .http 500 "Internal error"

/-- `BaseService.get_by_id` (`src/services/base_service.py:49-63`) over
raw string ids: `objects.get` raises a driver validation error on a
non-canonical id, which the generic handler turns into a 500; a missing
canonical id raises `DoesNotExist`, mapped to 404. -/
def str_get_by_id {α : Type} (store : List (String × α)) (idStr : String) :
    Except PyErr α :=
  if oid_is_valid idStr then
    match store.lookup idStr with
    | some o => .ok o
    | none => .error (.http 404 "Resource not found")
  else .error internalError

/-- `BaseService.get_by_ids` (`src/services/base_service.py:65-80`):
validate all ids up front with `parse_object_ids`, then `id__in`. -/
def str_get_by_ids {α : Type} (store : List (String × α)) (ids_str : String) :
    Except PyErr (List α) :=
  match parse_object_ids ids_str with
  | .error e => .error e
  | .ok ids => .ok ((store.filter (fun p => ids.contains p.1)).map (fun p => p.2))

/-- `BaseService.update` over raw string ids, id handling only: the
explicit `ObjectId.is_valid` guard rejects a non-canonical id with a 400
before any lookup; then `objects.get` (outside the handler) raises on a
missing id; the body application is abstracted as `f`. -/
def str_update {α : Type} (store : List (String × α)) (idStr : String)
    (f : α → α) : Except PyErr (α × List (String × α)) :=
  if !oid_is_valid idStr then .error (.http 400 "Invalid template ID format")
  else
    match store.lookup idStr with
    | none => .error .doesNotExist
    | some o =>
      let o' := f o
      .ok (o', store.map (fun p => if p.1 == idStr then (p.1, o') else p))

/-- `BaseService.delete` (`src/services/base_service.py:193-207`) over
raw string ids: like `get_by_id`, the non-canonical id surfaces from the
generic handler as a 500. -/
def str_delete {α : Type} (store : List (String × α)) (idStr : String) :
    Except PyErr (List (String × α)) :=
  if oid_is_valid idStr then
    match store.lookup idStr with
    | some _ => .ok (store.filter (fun p => !(p.1 == idStr)))
    | none => .error (.http 404 "Resource not found")
  else .error internalError

/-! ### Concrete stores for witnesses and counterexamples -/

/-- Concrete store exercising the access resolver: role 1 is the
global-admin role, role 2 an editor role with create, read and update on
`template_management`; actor 100 holds role 1 in group 10, actor 200
holds role 2 in group 10; group 20 has no members. -/
def dbResolver : Db :=
  { groups := [⟨10, [⟨100, 1⟩, ⟨200, 2⟩]⟩, ⟨20, []⟩]
  , roles := [⟨1, "superadmin", []⟩,
              ⟨2, "editor",
                [("template_management", [("c", true), ("r", true), ("u", true)])]⟩] }

/-- Lifecycle state: one restricted master (allowed group 10, creator
100) whose current version is version 600 with `version_num = 3`. -/
def stLifecycle : St :=
  { db := dbResolver
  , masters := [⟨500, "Boletin", "fields0", ⟨.restricted, [10]⟩, some 600, 100⟩]
  , versions := [⟨600, 500, 3, none, "v3", 100⟩]
  , nextId := 700 }

/-- State for the multi-group write checks: a restricted master allowed
in groups 10 and 20. -/
def stTwoGroups : St :=
  { db := dbResolver
  , masters := [⟨800, "M", "f", ⟨.restricted, [10, 20]⟩, none, 100⟩]
  , versions := []
  , nextId := 900 }

theorem scanAccessList_wf (roles : List Role) (uid : Nat) (l : List UserAccess)
    (hwf : ∀ ua ∈ l, (findRole roles ua.role_id).isSome) :
    scanAccessList roles uid l =
      .ok (l.any fun ua => ua.user_id == uid && uaIsGlobalAdmin roles ua) := by
  induction l with
  | nil => rfl
  | cons ua rest ih =>
    have hua := hwf ua (List.mem_cons_self ua rest)
    have hrest : ∀ x ∈ rest, (findRole roles x.role_id).isSome := by
      intro x hx; exact hwf x (List.mem_cons_of_mem _ hx)
    cases hmatch : ua.user_id == uid with
    | false =>
      simp only [scanAccessList, hmatch, if_neg, Bool.false_eq_true,
        not_false_iff, List.any_cons, Bool.false_and, Bool.false_or]
      exact ih hrest
    | true =>
      cases hrole : findRole roles ua.role_id with
      | none => rw [hrole] at hua; simp at hua
      | some r =>
        cases hname : GLOBAL_ADMIN_ROLE_NAMES.contains r.role_name with
        | true =>
          simp only [scanAccessList, hmatch, if_pos, hrole, hname, List.any_cons,
            uaIsGlobalAdmin, Bool.true_and, Bool.true_or]
        | false =>
          simp only [scanAccessList, hmatch, if_pos, hrole, hname,
            Bool.false_eq_true, if_neg, not_false_iff, List.any_cons,
            uaIsGlobalAdmin, Bool.true_and, Bool.false_or]
          exact ih hrest

theorem scanGroups_wf (db : Db) (uid : Nat) (l : List Group)
    (hl : ∀ g ∈ l, g ∈ db.groups) (hwf : RolesWF db) :
    scanGroups db.roles uid l =
      .ok (l.any fun g =>
        g.users_access.any fun ua =>
          ua.user_id == uid && uaIsGlobalAdmin db.roles ua) := by
  induction l with
  | nil => rfl
  | cons g rest ih =>
    have hg : ∀ ua ∈ g.users_access, (findRole db.roles ua.role_id).isSome := by
      intro ua hua
      exact hwf g (hl g (List.mem_cons_self g rest)) ua hua
    have hrest : ∀ x ∈ rest, x ∈ db.groups := by
      intro x hx; exact hl x (List.mem_cons_of_mem _ hx)
    rw [List.any_cons]
    cases hga : g.users_access.any fun ua =>
        ua.user_id == uid && uaIsGlobalAdmin db.roles ua with
    | true =>
      simp only [scanGroups, scanAccessList_wf db.roles uid g.users_access hg,
        hga, Bool.true_or]
    | false =>
      simp only [scanGroups, scanAccessList_wf db.roles uid g.users_access hg,
        hga, Bool.false_or]
      exact ih hrest

/-- Under referential integrity, the global-admin scan of
`user_has_permission` computes exactly `is_superadmin`. -/
theorem scanGroups_eq_is_superadmin (db : Db) (uid : Nat) (hwf : RolesWF db) :
    scanGroups db.roles uid (userGroups db uid) = .ok (is_superadmin db uid) := by
  rw [is_superadmin]
  apply scanGroups_wf db uid (userGroups db uid) _ hwf
  intro g hg
  exact List.mem_of_mem_filter hg

/-- Closed form of `user_has_permission` under referential integrity:
global-admin override first, then the per-group decision, with a raised
`DoesNotExist` when the group is absent. -/
theorem user_has_permission_eq (db : Db) (uid gid : Nat) (module action : String)
    (hwf : RolesWF db) :
    user_has_permission db uid gid module action =
      (if is_superadmin db uid then .ok true
       else
        match findGroup db gid with
        | none => .error .doesNotExist
        | some g => .ok (groupPermDecision db g uid module action)) := by
  unfold user_has_permission
  rw [scanGroups_eq_is_superadmin db uid hwf]
  cases hsa : is_superadmin db uid
  case true => rfl
  case false =>
    simp only [Bool.false_eq_true, if_neg, not_false_iff]
    cases hgrp : findGroup db gid
    case none => rfl
    case some g =>
      have hgmem : g ∈ db.groups := List.mem_of_find?_eq_some hgrp
      show (match findUserAccess g uid with
        | none => Except.ok false
        | some ua =>
          match findRole db.roles ua.role_id with
          | none => Except.error PyErr.doesNotExist
          | some role => Except.ok (permLookup role.permissions module action)) =
        Except.ok (groupPermDecision db g uid module action)
      unfold groupPermDecision
      cases hua : findUserAccess g uid
      case none => rfl
      case some ua =>
        have huamem : ua ∈ g.users_access := List.mem_of_find?_eq_some hua
        have hr := hwf g hgmem ua huamem
        show (match findRole db.roles ua.role_id with
          | none => Except.error PyErr.doesNotExist
          | some role => Except.ok (permLookup role.permissions module action)) =
          Except.ok (match findRole db.roles ua.role_id with
            | none => false
            | some role => permLookup role.permissions module action)
        cases hrole : findRole db.roles ua.role_id
        case none => rw [hrole] at hr; simp at hr
        case some r => rfl

/-- **C1**: `user_has_permission(actor, group, module, action)` returns true
iff the actor holds a global-admin role in some group (then true regardless
of the group, module and action asked about), or the actor's role in the
given group has the action allowed for the module; with the group present,
a missing module entry, missing action entry or absent membership yields
false (fail closed). -/
theorem user_has_permission_correct (db : Db) (uid : Nat) (hwf : RolesWF db) :
    (∀ gid module action,
        user_has_permission db uid gid module action = .ok true ↔
          (is_superadmin db uid = true ∨
            ∃ g, findGroup db gid = some g ∧
              groupPermDecision db g uid module action = true)) ∧
    (is_superadmin db uid = true →
      ∀ gid module action,
        user_has_permission db uid gid module action = .ok true) ∧
    (∀ gid g module action, findGroup db gid = some g →
        is_superadmin db uid = false →
        groupPermDecision db g uid module action = false →
        user_has_permission db uid gid module action = .ok false) := by
  refine ⟨?_, ?_, ?_⟩
  · intro gid module action
    rw [user_has_permission_eq db uid gid module action hwf]
    cases hsa : is_superadmin db uid
    case true => simp
    case false =>
      simp only [Bool.false_eq_true, if_neg, not_false_iff, false_or]
      cases hgrp : findGroup db gid
      case none =>
        constructor
        · intro h; exact absurd h (by simp)
        · rintro ⟨g, hg, _⟩; exact absurd hg (by simp)
      case some g =>
        show Except.ok (groupPermDecision db g uid module action) = Except.ok true ↔
          ∃ g', some g = some g' ∧ groupPermDecision db g' uid module action = true
        constructor
        · intro h
          refine ⟨g, rfl, ?_⟩
          simpa using h
        · rintro ⟨g', hg', hd⟩
          rw [show g = g' from Option.some.inj hg', hd]
  · intro hsa gid module action
    rw [user_has_permission_eq db uid gid module action hwf, hsa]
    rfl
  · intro gid g module action hgrp hsa hd
    rw [user_has_permission_eq db uid gid module action hwf, hsa, hgrp]
    simp [hd]

theorem user_has_permission_correct_witness :
    RolesWF dbResolver ∧
    (user_has_permission dbResolver 200 10 "template_management" "c" = .ok true ↔
      (is_superadmin dbResolver 200 = true ∨
        ∃ g, findGroup dbResolver 10 = some g ∧
          groupPermDecision dbResolver g 200 "template_management" "c" = true)) :=
  ⟨by decide,
   (user_has_permission_correct dbResolver 200 (by decide)).1
     10 "template_management" "c"⟩

/-- **C10** (implicit): for a non-global-admin actor and a group id absent
from the store, `user_has_permission` does not return a boolean deny — the
group lookup raises `DoesNotExist`, which propagates; only a global-admin
actor gets an answer (true) without the given group being consulted, even
when that group does not exist. -/
theorem missing_group_propagates (db : Db) (uid : Nat) (hwf : RolesWF db) :
    (is_superadmin db uid = false →
      ∀ gid module action, findGroup db gid = none →
        user_has_permission db uid gid module action = .error .doesNotExist) ∧
    (is_superadmin db uid = true →
      ∀ gid module action,
        user_has_permission db uid gid module action = .ok true) := by
  constructor
  · intro hsa gid module action hgrp
    rw [user_has_permission_eq db uid gid module action hwf, hsa, hgrp]
    rfl
  · intro hsa gid module action
    rw [user_has_permission_eq db uid gid module action hwf, hsa]
    rfl

/-! ### Generic store lemmas -/

theorem find?_cons_pos {α : Type} (p : α → Bool) (a : α) (l : List α)
    (h : p a = true) : (a :: l).find? p = some a := by
  simp [List.find?, h]

theorem find?_cons_neg {α : Type} (p : α → Bool) (a : α) (l : List α)
    (h : p a = false) : (a :: l).find? p = l.find? p := by
  simp [List.find?, h]

theorem find?_replaceBy {α : Type} (idOf : α → Nat) (l : List α) (x x' : α)
    (i : Nat) (hfind : l.find? (fun y => idOf y == i) = some x)
    (hid : idOf x' = idOf x) :
    (replaceBy idOf l x').find? (fun y => idOf y == i) = some x' := by
  induction l with
  | nil => simp [List.find?] at hfind
  | cons a rest ih =>
    cases hpa : (idOf a == i) with
    | true =>
      rw [find?_cons_pos (fun y => idOf y == i) a rest hpa] at hfind
      obtain rfl : a = x := Option.some.inj hfind
      have h1 : idOf a = i := by simpa using hpa
      have ha : (idOf a == idOf x') = true := by simp [hid, h1]
      unfold replaceBy
      rw [ha]
      simp only [if_pos]
      exact find?_cons_pos (fun y => idOf y == i) x' rest (by simp [hid, h1])
    | false =>
      rw [find?_cons_neg (fun y => idOf y == i) a rest hpa] at hfind
      have hx : (idOf x == i) = true := by
        simpa using List.find?_some hfind
      have ha : (idOf a == idOf x') = false := by
        cases hcontra : (idOf a == idOf x') with
        | false => rfl
        | true =>
          have h1 : idOf a = idOf x' := by simpa using hcontra
          have h2 : idOf x = i := by simpa using hx
          rw [h1, hid, h2] at hpa
          simp at hpa
      unfold replaceBy
      rw [ha]
      simp only [Bool.false_eq_true, if_neg, not_false_iff]
      rw [find?_cons_neg (fun y => idOf y == i) a _ hpa]
      exact ih hfind

theorem find?_eq_of_nodup_ids {α : Type} (idOf : α → Nat) (l : List α) (x : α)
    (i : Nat) (hnodup : (l.map idOf).Nodup) (hx : x ∈ l) (hid : idOf x = i) :
    l.find? (fun y => idOf y == i) = some x := by
  induction l with
  | nil => simp at hx
  | cons a rest ih =>
    rw [List.map_cons, List.nodup_cons] at hnodup
    rcases List.mem_cons.mp hx with rfl | hmem
    · exact find?_cons_pos (fun y => idOf y == i) x rest (by simp [hid])
    · have hpa : (idOf a == i) = false := by
        cases hcontra : (idOf a == i) with
        | false => rfl
        | true =>
          have h1 : idOf a = i := by simpa using hcontra
          exact absurd (h1 ▸ hid ▸ List.mem_map_of_mem idOf hmem)
            (by exact fun hm => hnodup.1 hm)
      rw [find?_cons_neg (fun y => idOf y == i) a rest hpa]
      exact ih hnodup.2 hmem

theorem mem_accessible {α : Type} (db : Db) (uid : Nat) (store : List α)
    (acc : α → AccessConfig) (filters : α → Bool) (r : α)
    (hr : r ∈ get_accessible_resources db uid store acc filters) :
    r ∈ store ∧ filters r = true := by
  unfold get_accessible_resources get_all at hr
  cases hsa : is_superadmin db uid with
  | true =>
    rw [hsa] at hr
    simp only [if_pos] at hr
    have := List.mem_filter.mp hr
    exact ⟨this.1, this.2⟩
  | false =>
    rw [hsa] at hr
    simp only [Bool.false_eq_true, if_neg, not_false_iff] at hr
    rcases List.mem_append.mp hr with h | h
    · have := List.mem_filter.mp h
      refine ⟨this.1, ?_⟩
      have := this.2
      simp only [Bool.and_eq_true] at this
      exact this.2
    · have := List.mem_filter.mp h
      refine ⟨this.1, ?_⟩
      have := this.2
      simp only [Bool.and_eq_true] at this
      exact this.2

/-- **C4**: the accessible-resources listing de-duplicates by id (given a
store with unique ids), always contains every public resource matching
the filters, never contains a restricted resource whose allowed groups
are disjoint from a non-global-admin actor's groups, and gives a global
admin every resource matching the filters. -/
theorem get_accessible_resources_correct {α : Type} (db : Db) (uid : Nat)
    (store : List α) (acc : α → AccessConfig) (filters : α → Bool)
    (idOf : α → Nat) (hnodup : (store.map idOf).Nodup) :
    ((get_accessible_resources db uid store acc filters).map idOf).Nodup ∧
    (∀ r ∈ store, (acc r).access_type = .public → filters r = true →
      r ∈ get_accessible_resources db uid store acc filters) ∧
    (is_superadmin db uid = false →
      ∀ r ∈ get_accessible_resources db uid store acc filters,
        (acc r).access_type = .restricted →
        ∃ gid ∈ (acc r).allowed_groups, gid ∈ get_user_groups db uid) ∧
    (is_superadmin db uid = true →
      get_accessible_resources db uid store acc filters = get_all store filters) := by
  cases hsa : is_superadmin db uid with
  | true =>
    have hres : get_accessible_resources db uid store acc filters =
        get_all store filters := by
      unfold get_accessible_resources
      rw [hsa]
      simp only [if_pos]
    refine ⟨?_, ?_, ?_, fun _ => hres⟩
    · rw [hres]
      exact hnodup.sublist ((List.filter_sublist store).map idOf)
    · intro r hrs _ hf
      rw [hres]
      exact List.mem_filter.mpr ⟨hrs, hf⟩
    · intro hcontra
      exact absurd hcontra (by simp)
  | false =>
    have hres : get_accessible_resources db uid store acc filters =
        store.filter (fun r => isPublicCfg (acc r) && filters r) ++
          store.filter (fun r => isRestrictedCfg (acc r) &&
            (acc r).allowed_groups.any
              (fun gid => (get_user_groups db uid).contains gid) && filters r) := by
      unfold get_accessible_resources
      rw [hsa]
      simp only [Bool.false_eq_true, if_neg, not_false_iff]
    refine ⟨?_, ?_, ?_, ?_⟩
    · rw [hres, List.map_append]
      rw [List.nodup_append]
      refine ⟨hnodup.sublist ((List.filter_sublist store).map idOf),
        hnodup.sublist ((List.filter_sublist store).map idOf), ?_⟩
      intro i hiA hiB
      obtain ⟨a, haf, hai⟩ := List.mem_map.mp hiA
      obtain ⟨b, hbf, hbi⟩ := List.mem_map.mp hiB
      have haf' := List.mem_filter.mp haf
      have hbf' := List.mem_filter.mp hbf
      have hab : a = b :=
        List.inj_on_of_nodup_map hnodup haf'.1 hbf'.1 (by rw [hai, hbi])
      have hpa : isPublicCfg (acc a) = true := by
        have := haf'.2
        simp only [Bool.and_eq_true] at this
        exact this.1
      have hpb : isRestrictedCfg (acc b) = true := by
        have := hbf'.2
        simp only [Bool.and_eq_true] at this
        exact this.1.1
      rw [hab] at hpa
      unfold isPublicCfg at hpa
      unfold isRestrictedCfg at hpb
      cases hacc : (acc b).access_type <;> rw [hacc] at hpa hpb <;> simp_all
    · intro r hrs hpub hf
      rw [hres]
      apply List.mem_append_left
      apply List.mem_filter.mpr
      refine ⟨hrs, ?_⟩
      have : isPublicCfg (acc r) = true := by unfold isPublicCfg; rw [hpub]
      simp [this, hf]
    · intro _ r hr hrestr
      rw [hres] at hr
      rcases List.mem_append.mp hr with h | h
      · have := (List.mem_filter.mp h).2
        simp only [Bool.and_eq_true] at this
        have hp := this.1
        unfold isPublicCfg at hp
        rw [hrestr] at hp
        simp at hp
      · have := (List.mem_filter.mp h).2
        simp only [Bool.and_eq_true] at this
        have hany := this.1.2
        obtain ⟨gid, hgid, hin⟩ := List.any_eq_true.mp hany
        exact ⟨gid, hgid, by simpa using hin⟩
    · intro hcontra
      exact absurd hcontra (by simp)

theorem get_accessible_resources_correct_witness :
    ((stLifecycle.masters.map (fun m : MasterRec => m.id)).Nodup) ∧
    (((get_accessible_resources stLifecycle.db 200 stLifecycle.masters
        (fun m => m.access_config) (fun _ => true)).map
          (fun m : MasterRec => m.id)).Nodup ∧
      (∀ r ∈ stLifecycle.masters, (r.access_config).access_type = .public →
        (fun _ : MasterRec => true) r = true →
        r ∈ get_accessible_resources stLifecycle.db 200 stLifecycle.masters
          (fun m => m.access_config) (fun _ => true)) ∧
      (is_superadmin stLifecycle.db 200 = false →
        ∀ r ∈ get_accessible_resources stLifecycle.db 200 stLifecycle.masters
            (fun m => m.access_config) (fun _ => true),
          (r.access_config).access_type = .restricted →
          ∃ gid ∈ (r.access_config).allowed_groups,
            gid ∈ get_user_groups stLifecycle.db 200) ∧
      (is_superadmin stLifecycle.db 200 = true →
        get_accessible_resources stLifecycle.db 200 stLifecycle.masters
          (fun m => m.access_config) (fun _ => true) =
            get_all stLifecycle.masters (fun _ => true))) :=
  ⟨by decide,
   get_accessible_resources_correct stLifecycle.db 200 stLifecycle.masters
     (fun m => m.access_config) (fun _ => true) (fun m => m.id) (by decide)⟩

theorem missing_group_propagates_witness :
    (is_superadmin dbResolver 200 = false ∧
      user_has_permission dbResolver 200 99 "template_management" "c" =
        .error .doesNotExist) ∧
    (is_superadmin dbResolver 100 = true ∧
      user_has_permission dbResolver 100 99 "template_management" "c" = .ok true) :=
  ⟨⟨by decide,
    (missing_group_propagates dbResolver 200 (by decide)).1 (by decide)
      99 "template_management" "c" (by decide)⟩,
   ⟨by decide,
    (missing_group_propagates dbResolver 100 (by decide)).2 (by decide)
      99 "template_management" "c"⟩⟩

/-! ### Lifecycle reduction lemmas -/

theorem svc_create_master_none (s : St) (uid : Nat) (data : MasterData) :
    svc_create_master s uid none data =
      (.ok ⟨s.nextId, data.name, data.fields, data.access_config,
          data.current_version_id, uid⟩,
       { s with
         masters := s.masters ++
           [⟨s.nextId, data.name, data.fields, data.access_config,
             data.current_version_id, uid⟩]
         nextId := s.nextId + 1 }) := rfl

theorem svc_update_master_none (s : St) (uid mid : Nat) (u : MasterUpdate)
    (m : MasterRec) (hfind : s.masters.find? (fun x => x.id == mid) = some m) :
    svc_update_master s uid none mid u =
      (.ok (applyUpdate m u),
       { s with masters := replaceBy (fun x => x.id) s.masters (applyUpdate m u) }) := by
  unfold svc_update_master
  rw [hfind]

theorem finishVersionWrite_ok (s1 : St) (uid mid : Nat) (v : VersionRec)
    (m : MasterRec) (hfind : s1.masters.find? (fun x => x.id == mid) = some m) :
    finishVersionWrite s1 uid mid v =
      (.ok v,
       { s1 with
         masters := (replaceBy (fun x => x.id) s1.masters
           (applyUpdate m { current_version_id := some v.id })) }) := by
  unfold finishVersionWrite
  rw [svc_update_master_none s1 uid mid _ m hfind]

/-- **C3**: on a visible master with no current version, `createVersion`
yields a version with `version_num = 1` and no previous version; on a
master whose current version exists, it yields `previous_version_id`
equal to the current version's id and `version_num` one more than its
`version_num`; in both cases the master is left pointing at the new
version. -/
theorem create_version_numbering (s : St) (uid mid : Nat) (payload : String)
    (m : MasterRec) (rest : List MasterRec)
    (hacc : get_accessible_resources s.db uid s.masters
      (fun x => x.access_config) (fun x => x.id == mid) = m :: rest)
    (hnodup : (s.masters.map (fun x => x.id)).Nodup) :
    (m.current_version_id = none →
      ∃ v s', create_version s uid mid payload = (.ok v, s') ∧
        v.version_num = 1 ∧ v.previous_version_id = none ∧ v ∈ s'.versions ∧
        ∃ m', s'.masters.find? (fun x => x.id == mid) = some m' ∧
          m'.current_version_id = some v.id) ∧
    (∀ pvid prev, m.current_version_id = some pvid →
      version_get_by_id s.versions pvid = .ok prev →
      ∃ v s', create_version s uid mid payload = (.ok v, s') ∧
        v.version_num = prev.version_num + 1 ∧
        v.previous_version_id = some pvid ∧ v ∈ s'.versions ∧
        ∃ m', s'.masters.find? (fun x => x.id == mid) = some m' ∧
          m'.current_version_id = some v.id) := by
  have hmem := mem_accessible s.db uid s.masters (fun x => x.access_config)
    (fun x => x.id == mid) m (by rw [hacc]; exact List.mem_cons_self m rest)
  have hmid : m.id = mid := by simpa using hmem.2
  have hfind0 : s.masters.find? (fun x => x.id == mid) = some m :=
    find?_eq_of_nodup_ids (fun x => x.id) s.masters m mid hnodup hmem.1 hmid
  have hhead : (get_accessible_resources s.db uid s.masters
      (fun x => x.access_config) (fun x => x.id == mid)).head? = some m := by
    rw [hacc]; rfl
  constructor
  · intro hcv
    have hstep : create_version s uid mid payload =
        (.ok (⟨s.nextId, mid, 1, none, payload, uid⟩ : VersionRec),
         { s with
           versions := s.versions ++ [⟨s.nextId, mid, 1, none, payload, uid⟩]
           nextId := s.nextId + 1
           masters := (replaceBy (fun x => x.id) s.masters
             (applyUpdate m { current_version_id := some s.nextId })) }) := by
      unfold create_version
      rw [hhead]
      simp only [hcv]
      exact finishVersionWrite_ok _ uid mid _ m hfind0
    refine ⟨⟨s.nextId, mid, 1, none, payload, uid⟩, _, hstep, rfl, rfl, ?_, ?_⟩
    · simp
    · have hfound := find?_replaceBy (fun x : MasterRec => x.id) s.masters m
        (applyUpdate m { current_version_id := some s.nextId }) mid hfind0 (by rfl)
      exact ⟨applyUpdate m { current_version_id := some s.nextId }, hfound, rfl⟩
  · intro pvid prev hcv hvg
    have hstep : create_version s uid mid payload =
        (.ok (⟨s.nextId, mid, prev.version_num + 1, some pvid, payload, uid⟩ :
            VersionRec),
         { s with
           versions := s.versions ++
             [⟨s.nextId, mid, prev.version_num + 1, some pvid, payload, uid⟩]
           nextId := s.nextId + 1
           masters := (replaceBy (fun x => x.id) s.masters
             (applyUpdate m { current_version_id := some s.nextId })) }) := by
      unfold create_version
      rw [hhead]
      simp only [hcv, hvg]
      exact finishVersionWrite_ok _ uid mid _ m hfind0
    refine ⟨⟨s.nextId, mid, prev.version_num + 1, some pvid, payload, uid⟩, _,
      hstep, rfl, rfl, ?_, ?_⟩
    · simp
    · have hfound := find?_replaceBy (fun x : MasterRec => x.id) s.masters m
        (applyUpdate m { current_version_id := some s.nextId }) mid hfind0 (by rfl)
      exact ⟨applyUpdate m { current_version_id := some s.nextId }, hfound, rfl⟩

theorem create_version_numbering_witness :
    ∃ v s', create_version stLifecycle 200 500 "p2" = (.ok v, s') ∧
      v.version_num = ((⟨600, 500, 3, none, "v3", 100⟩ : VersionRec)).version_num + 1 ∧
      v.previous_version_id = some 600 ∧ v ∈ s'.versions ∧
      ∃ m', s'.masters.find? (fun x => x.id == 500) = some m' ∧
        m'.current_version_id = some v.id :=
  (create_version_numbering stLifecycle 200 500 "p2"
      ⟨500, "Boletin", "fields0", ⟨.restricted, [10]⟩, some 600, 100⟩ []
      (by decide) (by decide)).2
    600 ⟨600, 500, 3, none, "v3", 100⟩ rfl rfl

/-- **C5**: creating or updating a restricted resource with allowed
groups `[g1, g2]` when the actor has the permission in `g1` but not in
`g2` is denied with a 403 naming the first failing group id (`g2`), and
the returned state is the unchanged input state: nothing was written. -/
theorem multi_group_write_denied (s : St) (uid : Nat) (md : String)
    (g1 g2 mid : Nat) (data : MasterData) (m : MasterRec) (u : MasterUpdate)
    (hdata : data.access_config = ⟨.restricted, [g1, g2]⟩)
    (hc1 : user_has_permission s.db uid g1 md "c" = .ok true)
    (hc2 : user_has_permission s.db uid g2 md "c" = .ok false)
    (hu1 : user_has_permission s.db uid g1 md "u" = .ok true)
    (hu2 : user_has_permission s.db uid g2 md "u" = .ok false)
    (hm : s.masters.find? (fun x => x.id == mid) = some m)
    (hmacc : m.access_config = ⟨.restricted, [g1, g2]⟩) :
    svc_create_master s uid (some md) data =
      (.error (.http 403 (createDenyDetail g2)), s) ∧
    svc_update_master s uid (some md) mid u =
      (.error (.http 403 (updateDenyDetail g2)), s) := by
  have hfdc : firstDeniedGroup s.db uid md "c" [g1, g2] = .ok (some g2) := by
    simp [firstDeniedGroup, hc1, hc2]
  have hfdu : firstDeniedGroup s.db uid md "u" [g1, g2] = .ok (some g2) := by
    simp [firstDeniedGroup, hu1, hu2]
  constructor
  · unfold svc_create_master
    rw [hdata]
    simp only [hfdc]
  · unfold svc_update_master
    simp only [hm]
    rw [hmacc]
    simp only [hfdu]

theorem multi_group_write_denied_witness :
    svc_create_master stTwoGroups 200 (some "template_management")
        ⟨"X", "f", ⟨.restricted, [10, 20]⟩, none⟩ =
      (.error (.http 403 (createDenyDetail 20)), stTwoGroups) ∧
    svc_update_master stTwoGroups 200 (some "template_management") 800 {} =
      (.error (.http 403 (updateDenyDetail 20)), stTwoGroups) :=
  multi_group_write_denied stTwoGroups 200 "template_management" 10 20 800
    ⟨"X", "f", ⟨.restricted, [10, 20]⟩, none⟩
    ⟨800, "M", "f", ⟨.restricted, [10, 20]⟩, none, 100⟩ {}
    rfl rfl rfl rfl rfl rfl rfl

/-! ### Error shapes of the version-creation flow -/

theorem version_get_by_id_error (vs : List VersionRec) (vid : Nat) (e : PyErr)
    (h : version_get_by_id vs vid = .error e) :
    e = .http 404 "Resource not found" := by
  unfold version_get_by_id at h
  cases hf : vs.find? (fun v => v.id == vid) with
  | some v => rw [hf] at h; simp at h
  | none =>
    rw [hf] at h
    injection h with h1
    exact h1.symm

theorem svc_update_master_none_error (s : St) (uid mid : Nat) (u : MasterUpdate)
    (e : PyErr) (s2 : St)
    (h : svc_update_master s uid none mid u = (.error e, s2)) :
    e = .doesNotExist := by
  unfold svc_update_master at h
  cases hf : s.masters.find? (fun x => x.id == mid) with
  | none =>
    rw [hf] at h
    have := (Prod.mk.injEq _ _ _ _).mp h
    injection this.1 with h1
    exact h1.symm
  | some m => rw [hf] at h; simp at h

theorem finishVersionWrite_error (s1 : St) (uid mid : Nat) (v : VersionRec)
    (e : PyErr) (h : (finishVersionWrite s1 uid mid v).1 = .error e) :
    e = .doesNotExist := by
  unfold finishVersionWrite at h
  rcases hu : svc_update_master s1 uid none mid
      { current_version_id := some v.id } with ⟨res, st⟩
  rw [hu] at h
  cases res with
  | error e' =>
    have he' : e' = .doesNotExist := svc_update_master_none_error s1 uid mid _ e' st hu
    simp only [] at h
    rw [he'] at h
    injection h with h1
    exact h1.symm
  | ok r => simp at h

/-- **C2** (amended): creating a version requires only that the master be
visible to the actor — when the visibility filter returns nothing the
operation fails with 404 "Not found or no access" and writes nothing (the
state is returned unchanged); no create-permission check is performed, so
the operation never fails with a 403 Forbidden, for public and restricted
masters alike. -/
theorem create_version_visibility_gate (s : St) (uid mid : Nat) (payload : String) :
    (get_accessible_resources s.db uid s.masters (fun x => x.access_config)
        (fun x => x.id == mid) = [] →
      create_version s uid mid payload = (.error notFoundNoAccess, s)) ∧
    (∀ d, (create_version s uid mid payload).1 ≠ .error (.http 403 d)) := by
  constructor
  · intro hacc
    unfold create_version
    rw [hacc]
    rfl
  · intro d hcontra
    unfold create_version at hcontra
    cases hh : (get_accessible_resources s.db uid s.masters
        (fun x => x.access_config) (fun x => x.id == mid)).head? with
    | none =>
      rw [hh] at hcontra
      simp only [] at hcontra
      injection hcontra with h1
      injection h1 with h2 h3
      simp at h2
    | some m =>
      rw [hh] at hcontra
      simp only [] at hcontra
      cases hcv : m.current_version_id with
      | none =>
        rw [hcv] at hcontra
        simp only [] at hcontra
        have := finishVersionWrite_error _ uid mid _ _ hcontra
        simp at this
      | some pvid =>
        rw [hcv] at hcontra
        simp only [] at hcontra
        cases hvg : version_get_by_id s.versions pvid with
        | error e =>
          rw [hvg] at hcontra
          simp only [] at hcontra
          have he := version_get_by_id_error s.versions pvid e hvg
          rw [he] at hcontra
          injection hcontra with h1
          injection h1 with h2 h3
          simp at h2
        | ok prev =>
          rw [hvg] at hcontra
          simp only [] at hcontra
          have := finishVersionWrite_error _ uid mid _ _ hcontra
          simp at this

theorem create_version_visibility_gate_witness :
    create_version stLifecycle 200 999 "p" = (.error notFoundNoAccess, stLifecycle) ∧
    (create_version stLifecycle 200 500 "p").1 ≠ .error (.http 403 "x") :=
  ⟨(create_version_visibility_gate stLifecycle 200 999 "p").1 (by decide),
   (create_version_visibility_gate stLifecycle 200 500 "p").2 "x"⟩

/-- **C2** counterexample to the claim as stated: in `stLifecycle` actor
200 is a member of allowed group 10 of the restricted master 500 but has
no create permission for the bulletins module in that group, yet
`create_version` succeeds and persists a new version instead of failing
with Forbidden. -/
theorem create_version_no_permission_check :
    user_has_permission stLifecycle.db 200 10 "bulletins_composer" "c" = .ok false ∧
    (create_version stLifecycle 200 500 "new payload").1 =
      .ok ⟨700, 500, 4, some 600, "new payload", 200⟩ ∧
    (⟨700, 500, 4, some 600, "new payload", 200⟩ : VersionRec) ∈
      (create_version stLifecycle 200 500 "new payload").2.versions :=
  ⟨rfl, rfl, by decide⟩

/-! ### Clone -/

theorem find?_append_fresh (l : List MasterRec) (m : MasterRec)
    (h : ∀ x ∈ l, x.id ≠ m.id) :
    (l ++ [m]).find? (fun x => x.id == m.id) = some m := by
  induction l with
  | nil => exact find?_cons_pos _ m [] (by simp)
  | cons a rest ih =>
    have ha : (a.id == m.id) = false := by
      cases hc : (a.id == m.id) with
      | false => rfl
      | true => exact absurd (by simpa using hc) (h a (List.mem_cons_self a rest))
    rw [List.cons_append, find?_cons_neg _ a _ ha]
    exact ih (fun x hx => h x (List.mem_cons_of_mem a hx))

theorem finishCloneWrite_ok (s1 : St) (uid : Nat) (newM : MasterRec)
    (cv : VersionRec) (m : MasterRec)
    (hfind : s1.masters.find? (fun x => x.id == newM.id) = some m) :
    finishCloneWrite s1 uid newM cv =
      (.ok (applyUpdate m { current_version_id := some s1.nextId },
            some ⟨s1.nextId, newM.id, cv.version_num, none, cv.payload, uid⟩),
       { s1 with
         versions := (s1.versions ++
           [⟨s1.nextId, newM.id, cv.version_num, none, cv.payload, uid⟩])
         nextId := s1.nextId + 1
         masters := (replaceBy (fun x => x.id) s1.masters
           (applyUpdate m { current_version_id := some s1.nextId })) }) := by
  unfold finishCloneWrite
  have hfind' : ((svc_create_version s1 uid newM.id cv.version_num none
      cv.payload).2).masters.find? (fun x => x.id == newM.id) = some m := hfind
  rw [svc_update_master_none _ uid newM.id _ m hfind']
  rfl

/-- **C6** (amended): cloning a master with current version `cv` yields a
new master with a fresh id, the name override (or the `" (clon)"` default
suffix), the source's other fields, and a refreshed audit log whose
creator is the acting user; its `current_version_id` points at a new
version carrying the source's `version_num` (not renumbered),
`previous_version_id = none` and `master_id` the new master's id.
Cloning a master with no current version yields a master with no
version. -/
theorem clone_master_correct (s : St) (uid : Nat) (master : MasterRec)
    (nameOverride : Option String)
    (hfresh : ∀ x ∈ s.masters, x.id ≠ s.nextId) :
    (∀ cvid cv, master.current_version_id = some cvid →
      version_get_by_id s.versions cvid = .ok cv →
      ∃ newM v s3,
        clone_master_with_version s uid master nameOverride =
          (.ok (newM, some v), s3) ∧
        newM.id = s.nextId ∧
        newM.name = (match nameOverride with
          | some n => n
          | none => master.name ++ " (clon)") ∧
        newM.fields = master.fields ∧
        newM.access_config = master.access_config ∧
        newM.creator = uid ∧
        newM.current_version_id = some v.id ∧
        v.version_num = cv.version_num ∧
        v.previous_version_id = none ∧
        v.master_id = newM.id ∧
        v ∈ s3.versions ∧ newM ∈ s3.masters) ∧
    (master.current_version_id = none →
      ∃ newM s1,
        clone_master_with_version s uid master nameOverride =
          (.ok (newM, none), s1) ∧
        newM.id = s.nextId ∧
        newM.name = (match nameOverride with
          | some n => n
          | none => master.name ++ " (clon)") ∧
        newM.fields = master.fields ∧
        newM.access_config = master.access_config ∧
        newM.creator = uid ∧
        newM.current_version_id = none) := by
  have hfind1 : (s.masters ++
      [(⟨s.nextId, (cloneData master nameOverride).name, master.fields,
        master.access_config, none, uid⟩ : MasterRec)]).find?
        (fun x => x.id == s.nextId) = some
          ⟨s.nextId, (cloneData master nameOverride).name, master.fields,
            master.access_config, none, uid⟩ :=
    find?_append_fresh s.masters
      ⟨s.nextId, (cloneData master nameOverride).name, master.fields,
        master.access_config, none, uid⟩ hfresh
  constructor
  · intro cvid cv hcv hvg
    have hstep : clone_master_with_version s uid master nameOverride =
        (.ok (⟨s.nextId, (cloneData master nameOverride).name, master.fields,
              master.access_config, some (s.nextId + 1), uid⟩,
              some ⟨s.nextId + 1, s.nextId, cv.version_num, none, cv.payload, uid⟩),
         { db := s.db
           masters := (replaceBy (fun x => x.id)
             (s.masters ++
               [⟨s.nextId, (cloneData master nameOverride).name, master.fields,
                 master.access_config, none, uid⟩])
             ⟨s.nextId, (cloneData master nameOverride).name, master.fields,
               master.access_config, some (s.nextId + 1), uid⟩)
           versions := (s.versions ++
             [⟨s.nextId + 1, s.nextId, cv.version_num, none, cv.payload, uid⟩])
           nextId := s.nextId + 2 }) := by
      unfold clone_master_with_version
      rw [svc_create_master_none]
      simp only [hcv, hvg]
      exact finishCloneWrite_ok
        { s with
          masters := (s.masters ++
            [⟨s.nextId, (cloneData master nameOverride).name, master.fields,
              master.access_config, none, uid⟩])
          nextId := s.nextId + 1 }
        uid
        ⟨s.nextId, (cloneData master nameOverride).name, master.fields,
          master.access_config, none, uid⟩
        cv
        ⟨s.nextId, (cloneData master nameOverride).name, master.fields,
          master.access_config, none, uid⟩
        hfind1
    refine ⟨_, _, _, hstep, rfl, rfl, rfl, rfl, rfl, rfl, rfl, rfl, rfl, ?_, ?_⟩
    · simp
    · have hfound := find?_replaceBy (fun x : MasterRec => x.id)
        (s.masters ++
          [⟨s.nextId, (cloneData master nameOverride).name, master.fields,
            master.access_config, none, uid⟩])
        ⟨s.nextId, (cloneData master nameOverride).name, master.fields,
          master.access_config, none, uid⟩
        ⟨s.nextId, (cloneData master nameOverride).name, master.fields,
          master.access_config, some (s.nextId + 1), uid⟩
        s.nextId hfind1 (by rfl)
      exact List.mem_of_find?_eq_some hfound
  · intro hcv
    have hstep : clone_master_with_version s uid master nameOverride =
        (.ok (⟨s.nextId, (cloneData master nameOverride).name, master.fields,
              master.access_config, none, uid⟩, none),
         { s with
           masters := (s.masters ++
             [⟨s.nextId, (cloneData master nameOverride).name, master.fields,
               master.access_config, none, uid⟩])
           nextId := s.nextId + 1 }) := by
      unfold clone_master_with_version
      rw [svc_create_master_none]
      simp only [hcv]
      rfl
    exact ⟨_, _, hstep, rfl, rfl, rfl, rfl, rfl, rfl⟩

theorem clone_master_correct_witness :
    (∀ x ∈ stLifecycle.masters, x.id ≠ stLifecycle.nextId) ∧
    ∃ newM v s3,
      clone_master_with_version stLifecycle 200
          ⟨500, "Boletin", "fields0", ⟨.restricted, [10]⟩, some 600, 100⟩ none =
        (.ok (newM, some v), s3) ∧
      newM.id = stLifecycle.nextId ∧
      newM.name = (match (none : Option String) with
        | some n => n
        | none => "Boletin" ++ " (clon)") ∧
      newM.fields = "fields0" ∧
      newM.access_config = ⟨.restricted, [10]⟩ ∧
      newM.creator = 200 ∧
      newM.current_version_id = some v.id ∧
      v.version_num = 3 ∧
      v.previous_version_id = none ∧
      v.master_id = newM.id ∧
      v ∈ s3.versions ∧ newM ∈ s3.masters :=
  ⟨by decide,
   (clone_master_correct stLifecycle 200
       ⟨500, "Boletin", "fields0", ⟨.restricted, [10]⟩, some 600, 100⟩ none
       (by decide)).1
     600 ⟨600, 500, 3, none, "v3", 100⟩ rfl rfl⟩

/-- **C6** counterexample to the claim as stated: cloning master 500
(audit-log creator 100) as actor 200 yields a master whose audit-log
creator is 200, so the clone is not identical to the source outside the
fresh id and the overridden fields. -/
theorem clone_refreshes_log :
    ∃ newM v,
      (clone_master_with_version stLifecycle 200
          ⟨500, "Boletin", "fields0", ⟨.restricted, [10]⟩, some 600, 100⟩ none).1 =
        .ok (newM, some v) ∧
      newM.creator ≠
        (⟨500, "Boletin", "fields0", ⟨.restricted, [10]⟩, some 600, 100⟩ :
          MasterRec).creator :=
  ⟨⟨700, "Boletin (clon)", "fields0", ⟨.restricted, [10]⟩, some 701, 200⟩,
   ⟨701, 700, 3, none, "v3", 200⟩, rfl, by decide⟩

/-! ### Version immutability -/

theorem svc_create_master_versions (s : St) (uid : Nat) (module : Option String)
    (data : MasterData) :
    (svc_create_master s uid module data).2.versions = s.versions := by
  unfold svc_create_master
  split
  · rfl
  · split
    · rfl
    · split
      · rfl
      · rfl
      · rfl

theorem svc_update_master_versions (s : St) (uid : Nat) (module : Option String)
    (mid : Nat) (u : MasterUpdate) :
    (svc_update_master s uid module mid u).2.versions = s.versions := by
  unfold svc_update_master
  split
  · rfl
  · split
    · rfl
    · split
      · rfl
      · split
        · rfl
        · rfl
        · rfl

theorem finishVersionWrite_versions (s1 : St) (uid mid : Nat) (v : VersionRec) :
    (finishVersionWrite s1 uid mid v).2.versions = s1.versions := by
  unfold finishVersionWrite
  split
  next e s2 heq =>
    have h := svc_update_master_versions s1 uid none mid
      { current_version_id := some v.id }
    rw [heq] at h
    exact h
  next r s2 heq =>
    have h := svc_update_master_versions s1 uid none mid
      { current_version_id := some v.id }
    rw [heq] at h
    exact h

theorem finishCloneWrite_versions (s1 : St) (uid : Nat) (newM : MasterRec)
    (cv : VersionRec) :
    (finishCloneWrite s1 uid newM cv).2.versions =
      s1.versions ++ [⟨s1.nextId, newM.id, cv.version_num, none, cv.payload, uid⟩] := by
  unfold finishCloneWrite
  split
  next e s3 heq =>
    have h := svc_update_master_versions
      (svc_create_version s1 uid newM.id cv.version_num none cv.payload).2 uid none
      newM.id
      { current_version_id :=
          some (svc_create_version s1 uid newM.id cv.version_num none cv.payload).1.id }
    rw [heq] at h
    exact h
  next newM2 s3 heq =>
    have h := svc_update_master_versions
      (svc_create_version s1 uid newM.id cv.version_num none cv.payload).2 uid none
      newM.id
      { current_version_id :=
          some (svc_create_version s1 uid newM.id cv.version_num none cv.payload).1.id }
    rw [heq] at h
    exact h

theorem create_version_versions (s : St) (uid mid : Nat) (payload : String) :
    ∃ t, (create_version s uid mid payload).2.versions = s.versions ++ t := by
  unfold create_version
  split
  · exact ⟨[], by simp⟩
  next m heq =>
    split
    next pvid heq2 =>
      split
      next e heq3 => exact ⟨[], by simp⟩
      next prev heq3 =>
        refine ⟨[⟨s.nextId, mid, prev.version_num + 1, some pvid, payload, uid⟩], ?_⟩
        exact finishVersionWrite_versions
          (svc_create_version s uid mid (prev.version_num + 1) (some pvid) payload).2
          uid mid
          (svc_create_version s uid mid (prev.version_num + 1) (some pvid) payload).1
    next heq2 =>
      refine ⟨[⟨s.nextId, mid, 1, none, payload, uid⟩], ?_⟩
      exact finishVersionWrite_versions
        (svc_create_version s uid mid 1 none payload).2 uid mid
        (svc_create_version s uid mid 1 none payload).1

theorem clone_master_versions (s : St) (uid : Nat) (master : MasterRec)
    (nameOverride : Option String) :
    ∃ t, (clone_master_with_version s uid master nameOverride).2.versions =
      s.versions ++ t := by
  unfold clone_master_with_version
  split
  next e s1 heq =>
    have h := svc_create_master_versions s uid none (cloneData master nameOverride)
    rw [heq] at h
    exact ⟨[], by rw [h]; simp⟩
  next newM s1 heq =>
    have h : s1.versions = s.versions := by
      have h0 := svc_create_master_versions s uid none (cloneData master nameOverride)
      rw [heq] at h0
      exact h0
    split
    · exact ⟨[], by rw [h]; simp⟩
    next cvid heq2 =>
      split
      next e heq3 => exact ⟨[], by rw [h]; simp⟩
      next cv heq3 =>
        refine ⟨[⟨s1.nextId, newM.id, cv.version_num, none, cv.payload, uid⟩], ?_⟩
        rw [finishCloneWrite_versions s1 uid newM cv, h]

theorem group_ops_versions (s : St) (a b c d : Nat) :
    (add_user_to_group s a b c d).2.versions = s.versions ∧
    (remove_user_from_group s a b c).2.versions = s.versions ∧
    (update_user_role_in_group s a b c d).2.versions = s.versions := by
  refine ⟨?_, ?_, ?_⟩
  · unfold add_user_to_group
    split
    · rfl
    · rfl
    · split
      · rfl
      · split
        · rfl
        · split
          · rfl
          · split
            · rfl
            · rfl
  · unfold remove_user_from_group
    split
    · rfl
    · rfl
    · split
      · rfl
      · dsimp only
        split
        · rfl
        · rfl
  · unfold update_user_role_in_group
    split
    · rfl
    · rfl
    · split
      · rfl
      · split
        · rfl
        · split
          · rfl
          · split
            · rfl
            · rfl

theorem runOp_versions_extend (s : St) (op : Op) :
    ∃ t, (runOp s op).versions = s.versions ++ t := by
  cases op with
  | createMaster uid module data =>
    refine ⟨[], ?_⟩
    simp only [runOp, svc_create_master_versions]
    simp
  | updateMaster uid module mid u =>
    refine ⟨[], ?_⟩
    simp only [runOp, svc_update_master_versions]
    simp
  | createVersion uid mid payload =>
    simpa only [runOp] using create_version_versions s uid mid payload
  | cloneMaster uid mid nm =>
    simp only [runOp]
    split
    · exact ⟨[], by simp⟩
    next m heq => exact clone_master_versions s uid m nm
  | addUser a b c d =>
    refine ⟨[], ?_⟩
    simp only [runOp, (group_ops_versions s a b c d).1]
    simp
  | removeUser a b c =>
    refine ⟨[], ?_⟩
    simp only [runOp, (group_ops_versions s a b c 0).2.1]
    simp
  | updateUserRole a b c d =>
    refine ⟨[], ?_⟩
    simp only [runOp, (group_ops_versions s a b c d).2.2]
    simp

/-- **C7**: version records are immutable — after any sequence of exposed
operations (master creation/update, version creation, clone, group
mutations), every version record present beforehand is still present with
the same `version_num` and `previous_version_id` (operations only ever
append to the version collection). -/
theorem versions_immutable (ops : List Op) (s : St) :
    ∀ v ∈ s.versions, ∃ v' ∈ (ops.foldl runOp s).versions,
      v'.id = v.id ∧ v'.version_num = v.version_num ∧
      v'.previous_version_id = v.previous_version_id := by
  induction ops generalizing s with
  | nil => exact fun v hv => ⟨v, hv, rfl, rfl, rfl⟩
  | cons op rest ih =>
    intro v hv
    obtain ⟨t, ht⟩ := runOp_versions_extend s op
    have hv1 : v ∈ (runOp s op).versions := by
      rw [ht]; exact List.mem_append_left t hv
    exact ih (runOp s op) v hv1

theorem versions_immutable_witness :
    ∃ v' ∈ (([Op.createVersion 200 500 "x"]).foldl runOp stLifecycle).versions,
      v'.id = (600 : Nat) ∧ v'.version_num = 3 ∧ v'.previous_version_id = none :=
  versions_immutable [Op.createVersion 200 500 "x"] stLifecycle
    ⟨600, 500, 3, none, "v3", 100⟩ (by decide)

/-! ### Group mutation behavior -/

theorem groupMutAuth_superadmin (db : Db) (updater gid : Nat) (action : String)
    (h : is_superadmin db updater = true) :
    groupMutAuth db updater gid action = .ok true := by
  simp [groupMutAuth, h]

theorem find?_map_update_role (l : List UserAccess) (uid rid : Nat)
    (h : l.any (fun ua => ua.user_id == uid) = true) :
    (l.map (fun ua =>
      if ua.user_id == uid then { ua with role_id := rid } else ua)).find?
        (fun ua => ua.user_id == uid) = some ⟨uid, rid⟩ := by
  induction l with
  | nil => simp at h
  | cons a rest ih =>
    cases ha : (a.user_id == uid) with
    | true =>
      have hau : a.user_id = uid := by simpa using ha
      rw [List.map_cons, if_pos ha, hau]
      exact find?_cons_pos _ _ _ (by simp)
    | false =>
      rw [List.map_cons, if_neg (by simp [ha]), find?_cons_neg _ a _ ha]
      apply ih
      simpa [List.any_cons, ha] using h

/-- **C8** (amended): with an authorized updater (a global admin), adding
an actor already in the group fails with HTTP 400 "User already belongs
to the group" — a BadRequest, not the 409 Conflict the spec names — and
leaves the state unchanged; removing an actor not in the group fails with
404 NotFound; and after a successful `update_user_role_in_group` the
actor's role in that group reads back as the new role. -/
theorem group_mutation_errors (s : St) (updater gid uid rid : Nat) (g : Group)
    (hsa : is_superadmin s.db updater = true)
    (hg : findGroup s.db gid = some g) :
    (∀ role, findRole s.db.roles rid = some role →
      g.users_access.any (fun ua => ua.user_id == uid) = true →
      add_user_to_group s updater gid uid rid =
        (.error (.http 400 "User already belongs to the group"), s)) ∧
    (g.users_access.any (fun ua => ua.user_id == uid) = false →
      remove_user_from_group s updater gid uid =
        (.error (.http 404 "User does not belong to the group"), s)) ∧
    (∀ newRole, findRole s.db.roles rid = some newRole →
      g.users_access.any (fun ua => ua.user_id == uid) = true →
      ∃ g' s', update_user_role_in_group s updater gid uid rid = (.ok g', s') ∧
        roleOf s'.db uid gid = some rid) := by
  refine ⟨?_, ?_, ?_⟩
  · intro role hrole hdup
    unfold add_user_to_group
    rw [groupMutAuth_superadmin s.db updater gid "c" hsa]
    simp only [hg, hrole, hsa]
    simp [hdup]
  · intro hnm
    have hall : ∀ ua ∈ g.users_access, (ua.user_id == uid) = false := by
      intro ua hua
      cases hx : (ua.user_id == uid) with
      | false => rfl
      | true =>
        have hcontra : g.users_access.any (fun ua => ua.user_id == uid) = true :=
          List.any_eq_true.mpr ⟨ua, hua, hx⟩
        rw [hnm] at hcontra
        exact absurd hcontra (by simp)
    have hfilter : g.users_access.filter (fun ua => !(ua.user_id == uid)) =
        g.users_access := by
      apply List.filter_eq_self.mpr
      intro a ha
      rw [hall a ha]
      rfl
    unfold remove_user_from_group
    rw [groupMutAuth_superadmin s.db updater gid "d" hsa]
    simp only [hg]
    simp [hfilter]
  · intro newRole hrole hmem
    have hres : update_user_role_in_group s updater gid uid rid =
        (.ok ⟨g.id, g.users_access.map (fun ua =>
            if ua.user_id == uid then { ua with role_id := rid } else ua)⟩,
         { s with db := ⟨replaceBy (fun x => x.id) s.db.groups
             ⟨g.id, g.users_access.map (fun ua =>
               if ua.user_id == uid then { ua with role_id := rid } else ua)⟩,
             s.db.roles⟩ }) := by
      unfold update_user_role_in_group
      rw [groupMutAuth_superadmin s.db updater gid "u" hsa]
      simp only [hg, hrole, hsa]
      simp [hmem]
    refine ⟨_, _, hres, ?_⟩
    have hfg : List.find? (fun y : Group => y.id == gid)
        (replaceBy (fun x : Group => x.id) s.db.groups
          (⟨g.id, g.users_access.map (fun ua : UserAccess =>
            if ua.user_id == uid then { ua with role_id := rid } else ua)⟩ : Group)) =
        some (⟨g.id, g.users_access.map (fun ua : UserAccess =>
          if ua.user_id == uid then { ua with role_id := rid } else ua)⟩ : Group) :=
      find?_replaceBy (fun x : Group => x.id) s.db.groups g
        (⟨g.id, g.users_access.map (fun ua : UserAccess =>
          if ua.user_id == uid then { ua with role_id := rid } else ua)⟩ : Group)
        gid hg rfl
    simp only [roleOf, findGroup, findUserAccess]
    simp only [hfg]
    rw [find?_map_update_role g.users_access uid rid hmem]
    rfl

theorem group_mutation_errors_witness :
    (add_user_to_group stLifecycle 100 10 200 2 =
      (.error (.http 400 "User already belongs to the group"), stLifecycle)) ∧
    (remove_user_from_group stLifecycle 100 10 999 =
      (.error (.http 404 "User does not belong to the group"), stLifecycle)) ∧
    (∃ g' s', update_user_role_in_group stLifecycle 100 10 200 2 = (.ok g', s') ∧
      roleOf s'.db 200 10 = some 2) :=
  ⟨(group_mutation_errors stLifecycle 100 10 200 2 ⟨10, [⟨100, 1⟩, ⟨200, 2⟩]⟩
        rfl rfl).1
      ⟨2, "editor", [("template_management", [("c", true), ("r", true), ("u", true)])]⟩
      rfl rfl,
   (group_mutation_errors stLifecycle 100 10 999 2 ⟨10, [⟨100, 1⟩, ⟨200, 2⟩]⟩
        rfl rfl).2.1 rfl,
   (group_mutation_errors stLifecycle 100 10 200 2 ⟨10, [⟨100, 1⟩, ⟨200, 2⟩]⟩
        rfl rfl).2.2
      ⟨2, "editor", [("template_management", [("c", true), ("r", true), ("u", true)])]⟩
      rfl rfl⟩

/-- **C8** counterexample to the claim as stated: the duplicate
membership add fails with HTTP status 400 (BadRequest), not 409
(Conflict). -/
theorem duplicate_add_is_400 :
    (add_user_to_group stLifecycle 100 10 200 2).1 =
      .error (.http 400 "User already belongs to the group") ∧
    ∀ d, (add_user_to_group stLifecycle 100 10 200 2).1 ≠ .error (.http 409 d) := by
  have h400 : (add_user_to_group stLifecycle 100 10 200 2).1 =
      .error (.http 400 "User already belongs to the group") := rfl
  refine ⟨h400, ?_⟩
  intro d h
  rw [h400] at h
  injection h with h1
  injection h1 with h2 h3
  exact absurd h2 (by decide)

/-! ### Malformed identifier handling -/

/-- **C9** (amended): a malformed (non-canonical ObjectId) identifier is
rejected with InvalidArgument (HTTP 400) before any lookup by `update`
(explicit `ObjectId.is_valid` guard) and by `get_by_ids`
(`parse_object_ids`); but `get_by_id` and `delete` let the driver raise
inside a generic `except Exception` handler, so there the malformed id
surfaces as a 500 internal error, not InvalidArgument and not
NotFound. -/
theorem malformed_id_behavior {α : Type} (store : List (String × α)) (f : α → α)
    (idStr : String) (hbad : oid_is_valid idStr = false)
    (hstrip : pyStrip idStr = idStr) (hne : idStr.isEmpty = false)
    (hsplit : pySplitComma idStr = [idStr]) :
    str_update store idStr f = .error (.http 400 "Invalid template ID format") ∧
    (∃ d, str_get_by_ids store idStr = .error (.http 400 d)) ∧
    str_get_by_id store idStr = .error internalError ∧
    str_delete store idStr = .error internalError := by
  refine ⟨?_, ?_, ?_, ?_⟩
  · simp [str_update, hbad]
  · have hparse : parse_object_ids idStr =
        .error (.http 400 ("Invalid ObjectIds: " ++
          String.intercalate ", " [idStr])) := by
      unfold parse_object_ids
      rw [hsplit]
      simp [hstrip, hne, hbad]
    refine ⟨"Invalid ObjectIds: " ++ String.intercalate ", " [idStr], ?_⟩
    simp [str_get_by_ids, hparse]
  · simp [str_get_by_id, hbad]
  · simp [str_delete, hbad]

theorem malformed_id_behavior_witness :
    str_update [("507f1f77bcf86cd799439011", (0 : Nat))] "xyz" (fun x => x) =
      .error (.http 400 "Invalid template ID format") ∧
    (∃ d, str_get_by_ids [("507f1f77bcf86cd799439011", (0 : Nat))] "xyz" =
      .error (.http 400 d)) ∧
    str_get_by_id [("507f1f77bcf86cd799439011", (0 : Nat))] "xyz" =
      .error internalError ∧
    str_delete [("507f1f77bcf86cd799439011", (0 : Nat))] "xyz" =
      .error internalError :=
  malformed_id_behavior [("507f1f77bcf86cd799439011", (0 : Nat))] (fun x => x)
    "xyz" (by decide) (by decide) (by decide) (by decide)

/-- **C9** counterexample to the claim as stated: `get_by_id` on the
malformed id `"xyz"` fails with a 500 internal error, not the
InvalidArgument (400) the claim requires. -/
theorem malformed_get_by_id_500 :
    str_get_by_id [("507f1f77bcf86cd799439011", (0 : Nat))] "xyz" =
      .error (.http 500 "Internal error") ∧
    ∀ d, str_get_by_id [("507f1f77bcf86cd799439011", (0 : Nat))] "xyz" ≠
      .error (.http 400 d) := by
  have h : str_get_by_id [("507f1f77bcf86cd799439011", (0 : Nat))] "xyz" =
      .error (.http 500 "Internal error") := rfl
  refine ⟨h, ?_⟩
  intro d hc
  rw [h] at hc
  injection hc with h1
  injection h1 with h2 h3
  exact absurd h2 (by decide)

end ACB
